import Mathlib

/-!
Verification of the tuition-administration student API
(`src/prac17/models/Student.js` and the Express router / server files).

The development shallowly embeds the Mongoose model and the Express route
handlers as pure Lean functions over an explicit list of stored documents.
Mongoose library semantics that the repository relies on are translated
faithfully where they decide a claim, in particular:

* `Document.prototype.save` runs schema validation and then the registered
  `pre("save")` middleware before committing the write;
* `Model.findByIdAndUpdate` does **not** run `pre("save")` middleware (it
  belongs to the query-middleware family), even with `runValidators: true`,
  which only re-runs the field validators for the updated paths;
* the `lowercase`/`trim` options of string schema paths act as setters that
  are applied before validation;
* the unique index on `email` rejects an insert whose (normalized) email
  equals a stored one with error code 11000.

Dates are modelled as calendar dates (year / 0-based month / day-of-month /
milliseconds-within-day) with the exact JavaScript `setMonth(getMonth()+1)`
overflow behaviour.  Query-parameter strings that the router feeds through
`parseInt` are modelled as already-parsed natural numbers.
-/

namespace TuitionAdmin

/-! ### Dates: JavaScript `Date` with `setMonth(getMonth() + 1)` -/

/-- A JavaScript `Date`, decomposed into local calendar fields:
`month` is 0-based as in JS, `day` is 1-based, `ms` is the time of day. -/
structure JsDate where
  year : Nat
  month : Nat
  day : Nat
  ms : Nat
  deriving DecidableEq, Repr

/-- Gregorian leap-year rule (as used by JavaScript `Date`). -/
def isLeap (y : Nat) : Bool :=
  y % 4 == 0 && (y % 100 != 0 || y % 400 == 0)

/-- Days in 0-based month `m` of year `y`. -/
def daysInMonth (y m : Nat) : Nat :=
  match m with
  | 0 => 31
  | 1 => if isLeap y then 29 else 28
  | 2 => 31
  | 3 => 30
  | 4 => 31
  | 5 => 30
  | 6 => 31
  | 7 => 31
  | 8 => 30
  | 9 => 31
  | 10 => 30
  | _ => 31

/-- Models `new Date(d); d.setMonth(d.getMonth() + 1)` — JavaScript keeps the
day-of-month and lets it overflow into the following month when the target
month is shorter (e.g. Jan 31 + 1 month = Mar 2/3). -/
def jsAddMonth (d : JsDate) : JsDate :=
  let m1 := d.month + 1
  let y1 := d.year + m1 / 12
  let m2 := m1 % 12
  if d.day ≤ daysInMonth y1 m2 then
    ⟨y1, m2, d.day, d.ms⟩
  else
    let m3 := m2 + 1
    ⟨y1 + m3 / 12, m3 % 12, d.day - daysInMonth y1 m2, d.ms⟩

/-- Linearisation of a date for comparisons (fields are within range for
every date the model constructs: `month < 12`, `day ≤ 34`, `ms` below one
day's milliseconds). -/
def JsDate.key (d : JsDate) : Nat :=
  ((d.year * 12 + d.month) * 64 + d.day) * 100000000 + d.ms

/-- Strict order `a < b` on dates, as the `$lt` comparison used by the overdue query. -/
def JsDate.jsLt (a b : JsDate) : Bool :=
  a.key < b.key

/-! ### Strings: lowering, substring containment -/

/-- JavaScript `String.prototype.trim` / the `trim: true` schema setter:
strip leading and trailing whitespace. -/
def trimStr (s : String) : String :=
  ⟨((s.data.dropWhile Char.isWhitespace).reverse.dropWhile Char.isWhitespace).reverse⟩

/-- Lower-casing, as performed by the schema's `lowercase: true` setter and
the route's `normalizeEmail()` sanitizer. -/
def lowerStr (s : String) : String :=
  ⟨s.data.map Char.toLower⟩

/-- Split a character list at every occurrence of `c` (like
`String.prototype.split`): `n` separators yield `n + 1` pieces. -/
def splitChars (c : Char) : List Char → List (List Char)
  | [] => [[]]
  | x :: xs =>
      if x == c then [] :: splitChars c xs
      else
        match splitChars c xs with
        | [] => [[x]]
        | h :: t => (x :: h) :: t

/-- Case-insensitive normalisation used to model the `$options: "i"` regex
search: lower-case the character list of a string. -/
def lowerChars (s : String) : List Char :=
  s.data.map Char.toLower

/-- Tests whether `needle` occurs as a contiguous substring of `hay`. -/
def containsSub (hay needle : List Char) : Bool :=
  match hay with
  | [] => needle.isEmpty
  | _ :: t => needle.isPrefixOf hay || containsSub t needle

/-- Case-insensitive substring match: models `{$regex: term, $options: "i"}`
for search terms without regex metacharacters (all terms the claims use). -/
def iContains (field term : String) : Bool :=
  containsSub (lowerChars field) (lowerChars term)

/-! ### A small regular-expression engine (Brzozowski derivatives)

Used to embed the schema's email pattern
`/^\w+([.-]?\w+)*@\w+([.-]?\w+)*(\.\w{2,3})+$/` exactly. -/

/-- Regular expressions over characters; `cls` is a character class. -/
inductive RE where
  | fail
  | eps
  | cls (f : Char → Bool)
  | seq (a b : RE)
  | alt (a b : RE)
  | star (a : RE)

/-- The language of `r` contains the empty word. -/
def RE.nullable : RE → Bool
  | .fail => false
  | .eps => true
  | .cls _ => false
  | .seq a b => a.nullable && b.nullable
  | .alt a b => a.nullable || b.nullable
  | .star _ => true

/-- Smart sequence constructor (prunes `fail` and `eps`). -/
def RE.mkSeq : RE → RE → RE
  | .fail, _ => .fail
  | _, .fail => .fail
  | .eps, b => b
  | a, .eps => a
  | a, b => .seq a b

/-- Smart alternation constructor (prunes `fail`). -/
def RE.mkAlt : RE → RE → RE
  | .fail, b => b
  | a, .fail => a
  | a, b => .alt a b

/-- Brzozowski derivative of `r` by character `c`. -/
def RE.deriv (c : Char) : RE → RE
  | .fail => .fail
  | .eps => .fail
  | .cls f => if f c then .eps else .fail
  | .seq a b =>
      if a.nullable then
        .mkAlt (.mkSeq (a.deriv c) b) (b.deriv c)
      else
        .mkSeq (a.deriv c) b
  | .alt a b => .mkAlt (a.deriv c) (b.deriv c)
  | .star a => .mkSeq (a.deriv c) (.star a)

/-- Anchored match of `r` against a whole string. -/
def reMatch (r : RE) (s : String) : Bool :=
  (s.data.foldl (fun r c => r.deriv c) r).nullable

/-- One or more repetitions, `r+`. -/
def RE.plus (a : RE) : RE := .seq a (.star a)

/-- Optional occurrence, `r?`. -/
def RE.opt (a : RE) : RE := .alt a .eps

/-- JS `\w`: ASCII letters, digits, underscore. -/
def wordChar (c : Char) : Bool :=
  c.isAlphanum || c == '_'

/-- Character class `[.-]`. -/
def dotDash (c : Char) : Bool :=
  c == '.' || c == '-'

/-- Pattern `\w+([.-]?\w+)*` — one "name part" of the schema's email pattern. -/
def emailPartRE : RE :=
  .seq (RE.plus (.cls wordChar))
    (.star (.seq (RE.opt (.cls dotDash)) (RE.plus (.cls wordChar))))

/-- Pattern `\.\w{2,3}` — a dot followed by two or three word characters. -/
def tldGroupRE : RE :=
  .seq (.cls (fun c => c == '.'))
    (.seq (.cls wordChar) (.seq (.cls wordChar) (RE.opt (.cls wordChar))))

/-- The email `match` pattern of `src/prac17/models/Student.js`:
`/^\w+([.-]?\w+)*@\w+([.-]?\w+)*(\.\w{2,3})+$/`. -/
def emailRE : RE :=
  .seq emailPartRE
    (.seq (.cls (fun c => c == '@'))
      (.seq emailPartRE (RE.plus tldGroupRE)))

/-- Whole-string match against the schema's email pattern. -/
def schemaEmailMatch (s : String) : Bool :=
  reMatch emailRE s

/-- The phone pattern `/^[\+]?[1-9][\d]{0,15}$/` shared by `phone` and
`guardianPhone` in both the schema and the route validators. -/
def phoneMatch (s : String) : Bool :=
  let l := s.data
  let l1 := if l.head? == some '+' then l.tail else l
  match l1 with
  | [] => false
  | d :: ds => d.isDigit && d != '0' && ds.all Char.isDigit && ds.length ≤ 15

/-! ### The Student document and request bodies -/

/-- A stored Student document.  `feeStatus` and `course` are stored as
strings (the schema's `enum` is a validator, not a representation change);
`createdAt` is the store's insertion timestamp, modelled as a counter. -/
structure Student where
  id : Nat
  name : String
  email : String
  phone : String
  address : String
  course : String
  batchTime : String
  feeAmount : Int
  feeStatus : String
  joinDate : JsDate
  guardianName : String
  guardianPhone : String
  notes : Option String
  isActive : Bool
  lastFeePayment : Option JsDate
  nextFeePayment : Option JsDate
  createdAt : Nat
  deriving DecidableEq, Repr

/-- A create request body (`req.body` of `POST /`).  Dates arrive already
parsed; `feeAmount` is numeric (the `isNumeric` route rule is therefore
satisfied by typing). -/
structure StudentInput where
  name : String
  email : String
  phone : String
  address : String
  course : String
  batchTime : String
  feeAmount : Int
  guardianName : String
  guardianPhone : String
  notes : Option String := none
  feeStatus : Option String := none
  joinDate : Option JsDate := none
  lastFeePayment : Option JsDate := none
  deriving Repr

/-- The 20-item course catalog of the schema's `enum`. -/
def courseCatalog : List String :=
  ["Mathematics - Class 9", "Mathematics - Class 10",
   "Mathematics - Class 11", "Mathematics - Class 12",
   "Physics - Class 9", "Physics - Class 10",
   "Physics - Class 11", "Physics - Class 12",
   "Chemistry - Class 9", "Chemistry - Class 10",
   "Chemistry - Class 11", "Chemistry - Class 12",
   "Biology - Class 11", "Biology - Class 12",
   "English - Class 9", "English - Class 10",
   "English - Class 11", "English - Class 12",
   "Computer Science - Class 11", "Computer Science - Class 12"]

/-! ### Route-level validation middleware (`validateStudent`) -/

/-- Modelled from the spec: the route's email rule is the external
validator library's `isEmail()` ("email: syntactically valid address");
the library is not part of this repository.  The model conservatively
accepts `local@domain` with a non-empty local part of common mailbox
characters and a dot-separated domain whose final label is alphabetic of
length ≥ 2 — every address this model accepts, `isEmail()` accepts. -/
def isEmailModelled (s : String) : Bool :=
  match splitChars '@' s.data with
  | [loc, dom] =>
      let locOk := !loc.isEmpty &&
        loc.all (fun c =>
          c.isAlphanum || c == '.' || c == '_' || c == '%' || c == '+' || c == '-')
      let labels := splitChars '.' dom
      let labelsOk := decide (2 ≤ labels.length) &&
        labels.all (fun l => !l.isEmpty && l.all (fun c => c.isAlphanum || c == '-'))
      let tldOk :=
        match labels.getLast? with
        | some t => decide (2 ≤ t.length) && t.all Char.isAlpha
        | none => false
      locOk && labelsOk && tldOk
  | _ => false

/-- The `validateStudent` chain of the router: each failing rule
contributes its `withMessage` text, in chain order.  Note that the
`course` rule is only `notEmpty()` — catalog membership is *not* checked
at the route level. -/
def routeValidate (i : StudentInput) : List String :=
  let n := trimStr i.name
  (if n.length == 0 then ["Name is required"] else [])
  ++ (if n.length < 2 || n.length > 100 then
        ["Name must be between 2 and 100 characters"] else [])
  ++ (if isEmailModelled i.email then [] else ["Please enter a valid email address"])
  ++ (if phoneMatch i.phone then [] else ["Please enter a valid phone number"])
  ++ (let a := trimStr i.address
      (if a.length == 0 then ["Address is required"] else [])
      ++ (if a.length > 500 then ["Address cannot exceed 500 characters"] else []))
  ++ (if i.course == "" then ["Course is required"] else [])
  ++ (if trimStr i.batchTime == "" then ["Batch time is required"] else [])
  ++ (if i.feeAmount < 0 then ["Fee amount cannot be negative"] else [])
  ++ (if i.feeAmount > 50000 then ["Fee amount cannot exceed ₹50,000"] else [])
  ++ (match i.feeStatus with
      | none => []
      | some s =>
          if s == "paid" || s == "pending" || s == "overdue" then []
          else ["Fee status must be paid, pending, or overdue"])
  ++ (let g := trimStr i.guardianName
      (if g.length == 0 then ["Guardian name is required"] else [])
      ++ (if g.length > 100 then ["Guardian name cannot exceed 100 characters"] else []))
  ++ (if phoneMatch i.guardianPhone then [] else ["Please enter a valid guardian phone number"])
  ++ (match i.notes with
      | none => []
      | some s => if s.length > 1000 then ["Notes cannot exceed 1000 characters"] else [])

/-- The sanitizers of the `validateStudent` chain, which rewrite `req.body`
before the handler sees it: `.trim()` on name / address / batchTime /
guardianName, `normalizeEmail()` (lower-casing) on email. -/
def sanitizeInput (i : StudentInput) : StudentInput :=
  { i with
    name := trimStr i.name
    email := lowerStr i.email
    address := trimStr i.address
    batchTime := trimStr i.batchTime
    guardianName := trimStr i.guardianName }

/-! ### The Mongoose model: construction, validation, the pre-save hook -/

/-- Construction `new Student(studentData)`: applies the schema's setters (`trim` on the
string paths, `lowercase` on email) and defaults (`feeStatus` "pending",
`joinDate` `Date.now`, `isActive` true).  The store assigns `id` and
`createdAt`. -/
def buildDoc (nextId : Nat) (i : StudentInput) (now : JsDate) : Student :=
  { id := nextId
    name := trimStr i.name
    email := lowerStr (trimStr i.email)
    phone := trimStr i.phone
    address := trimStr i.address
    course := trimStr i.course
    batchTime := trimStr i.batchTime
    feeAmount := i.feeAmount
    feeStatus := i.feeStatus.getD "pending"
    joinDate := i.joinDate.getD now
    guardianName := trimStr i.guardianName
    guardianPhone := trimStr i.guardianPhone
    notes := i.notes.map trimStr
    isActive := true
    lastFeePayment := i.lastFeePayment
    nextFeePayment := none
    createdAt := nextId }

/-- Schema validation of a document, as run by `save()` (all paths). -/
def mongooseValid (d : Student) : Bool :=
  d.name != "" && decide (2 ≤ d.name.length) && decide (d.name.length ≤ 100)
  && d.email != "" && schemaEmailMatch d.email
  && d.phone != "" && phoneMatch d.phone
  && d.address != "" && decide (d.address.length ≤ 500)
  && courseCatalog.contains d.course
  && d.batchTime != ""
  && decide (0 ≤ d.feeAmount) && decide (d.feeAmount ≤ 50000)
  && (d.feeStatus == "paid" || d.feeStatus == "pending" || d.feeStatus == "overdue")
  && d.guardianName != "" && decide (d.guardianName.length ≤ 100)
  && d.guardianPhone != "" && phoneMatch d.guardianPhone
  && (match d.notes with | none => true | some s => decide (s.length ≤ 1000))

/-- The `studentSchema.pre("save")` middleware: recompute `nextFeePayment`
from `lastFeePayment || joinDate` when the document is new or
`lastFeePayment` was modified; then stamp `lastFeePayment` with the
current time when `feeStatus` is "paid" and `lastFeePayment` is unset. -/
def preSave (isNew modifiedLastFee : Bool) (now : JsDate) (d : Student) : Student :=
  let d1 :=
    if isNew || modifiedLastFee then
      { d with nextFeePayment := some (jsAddMonth (d.lastFeePayment.getD d.joinDate)) }
    else d
  if d1.feeStatus == "paid" && d1.lastFeePayment.isNone then
    { d1 with lastFeePayment := some now }
  else d1

/-- Models `Document.save()`: schema validation runs first; only if it passes do
the `pre("save")` hooks run and the write commit.  `none` models the
rejected promise (a `ValidationError`). -/
def saveDoc (isNew modifiedLastFee : Bool) (now : JsDate) (d : Student) : Option Student :=
  if mongooseValid d then some (preSave isNew modifiedLastFee now d) else none

/-- Instance method `markFeePaid`: sets `feeStatus` and `lastFeePayment`,
then saves (so the hook sees `lastFeePayment` as modified). -/
def markFeePaid (now : JsDate) (st : Student) : Option Student :=
  saveDoc false true now { st with feeStatus := "paid", lastFeePayment := some now }

/-- Instance method `markFeeOverdue`: sets `feeStatus`, then saves. -/
def markFeeOverdue (now : JsDate) (st : Student) : Option Student :=
  saveDoc false false now { st with feeStatus := "overdue" }

/-- Instance method `deactivate`: sets `isActive := false`, then saves. -/
def deactivateDoc (now : JsDate) (st : Student) : Option Student :=
  saveDoc false false now { st with isActive := false }

/-! ### Query helpers (statics of the schema) -/

/-- Models `Student.findById` over the modelled collection. -/
def findById (db : List Student) (id : Nat) : Option Student :=
  db.find? (fun r => r.id == id)

/-- Committing a single-document write: replace the document with that id. -/
def replaceById (db : List Student) (id : Nat) (d : Student) : List Student :=
  db.map (fun r => if r.id == id then d else r)

/-- Static `findByCourse`: exact course match, active only. -/
def findByCourse (course : String) (db : List Student) : List Student :=
  db.filter (fun r => r.course == course && r.isActive)

/-- Static `findByFeeStatus`: exact status match, active only. -/
def findByFeeStatus (status : String) (db : List Student) : List Student :=
  db.filter (fun r => r.feeStatus == status && r.isActive)

/-- The `searchStudents` document predicate: active, and the term occurs
case-insensitively in name, email, course or phone. -/
def searchPred (term : String) (r : Student) : Bool :=
  r.isActive && (iContains r.name term || iContains r.email term
    || iContains r.course term || iContains r.phone term)

/-- Static `searchStudents`. -/
def searchStudents (term : String) (db : List Student) : List Student :=
  db.filter (searchPred term)

/-- The `getOverdueStudents` document predicate: active, and either
explicitly overdue, or pending with `nextFeePayment` strictly before
`today` (a missing `nextFeePayment` does not satisfy `$lt`). -/
def overduePred (today : JsDate) (r : Student) : Bool :=
  r.isActive && (r.feeStatus == "overdue" ||
    (r.feeStatus == "pending" &&
      (match r.nextFeePayment with
       | some d => d.jsLt today
       | none => false)))

/-- Static `getOverdueStudents`. -/
def getOverdueStudents (today : JsDate) (db : List Student) : List Student :=
  db.filter (overduePred today)

/-! ### Route handlers -/

/-- The uniform JSON envelope of the router, together with the HTTP status
it is sent with. -/
structure ApiResponse where
  status : Nat
  success : Bool
  message : String
  errors : List String := []
  data : Option Student := none
  deriving DecidableEq, Repr

/-- The 400 response of `handleValidationErrors`. -/
def validationFailedResponse (errs : List String) : ApiResponse :=
  { status := 400, success := false, message := "Validation failed", errors := errs }

/-- The 409 response of the explicit pre-insert email lookup in `POST /`. -/
def precheckConflictResponse : ApiResponse :=
  { status := 409, success := false, message := "Student with this email already exists" }

/-- The 409 response of the `error.code === 11000` branch of `POST /`'s
catch block (the store's unique-index violation). -/
def dupKeyConflictResponse : ApiResponse :=
  { status := 409, success := false, message := "Student with this email already exists" }

/-- The 201 response of a successful create. -/
def createdResponse (d : Student) : ApiResponse :=
  { status := 201, success := true, message := "Student created successfully", data := some d }

/-- The generic 500 response of `POST /`'s catch block. -/
def createFailedResponse : ApiResponse :=
  { status := 500, success := false, message := "Failed to create student" }

/-- The 404 response shared by the id-addressed routes. -/
def notFoundResponse : ApiResponse :=
  { status := 404, success := false, message := "Student not found" }

/-- The `POST /` handler body (after the validation middleware; `data` is the
sanitized request body): explicit email pre-check, `new Student` +
`save()`, and the store's unique-index enforcement at insert, whose
violation surfaces as the 11000 catch branch. -/
def createOp (data : StudentInput) (now : JsDate) (nextId : Nat)
    (db : List Student) : ApiResponse × List Student :=
  if (db.find? (fun r => r.email == data.email)).isSome then
    (precheckConflictResponse, db)
  else
    let doc0 := buildDoc nextId data now
    match saveDoc true true now doc0 with
    | none => (createFailedResponse, db)
    | some doc =>
        if db.any (fun r => r.email == doc.email) then
          (dupKeyConflictResponse, db)
        else
          (createdResponse doc, db ++ [doc])

/-- The `POST /` route including the `validateStudent` + `handleValidationErrors`
middleware: on any rule failure the 400 with the field messages is sent
and the handler (hence the store) is never reached. -/
def routeCreate (i : StudentInput) (now : JsDate) (nextId : Nat)
    (db : List Student) : ApiResponse × List Student :=
  let errs := routeValidate i
  if errs.isEmpty then createOp (sanitizeInput i) now nextId db
  else (validationFailedResponse errs, db)

/-- A `PUT /:id` request body, restricted to the paths the claims
exercise (any subset of paths may be present in `req.body`). -/
structure UpdateData where
  name : Option String := none
  email : Option String := none
  course : Option String := none
  feeStatus : Option String := none
  feeAmount : Option Int := none
  lastFeePayment : Option JsDate := none
  deriving Repr

/-- The `validateStudentUpdate` chain restricted to the modelled paths
(every rule is `optional()`). -/
def routeValidateUpdate (u : UpdateData) : List String :=
  (match u.name with
   | none => []
   | some n =>
       let t := trimStr n
       (if t.length == 0 then ["Name cannot be empty"] else [])
       ++ (if t.length < 2 || t.length > 100 then
             ["Name must be between 2 and 100 characters"] else []))
  ++ (match u.email with
      | none => []
      | some e => if isEmailModelled e then [] else ["Please enter a valid email address"])
  ++ (match u.course with
      | none => []
      | some c => if c == "" then ["Course cannot be empty"] else [])
  ++ (match u.feeStatus with
      | none => []
      | some s =>
          if s == "paid" || s == "pending" || s == "overdue" then []
          else ["Fee status must be paid, pending, or overdue"])
  ++ (match u.feeAmount with
      | none => []
      | some a =>
          (if a < 0 then ["Fee amount cannot be negative"] else [])
          ++ (if a > 50000 then ["Fee amount cannot exceed ₹50,000"] else []))

/-- The `normalizeEmail()` sanitizer of the update chain. -/
def sanitizeUpdate (u : UpdateData) : UpdateData :=
  { u with email := u.email.map lowerStr }

/-- The document transformation of `findByIdAndUpdate(id, updateData)`: `$set`
of the provided paths, with the schema setters applied to them.  No
`pre("save")` middleware runs for this query-family operation, so
`nextFeePayment` is never recomputed and `lastFeePayment` is never
auto-stamped here. -/
def mergeUpdate (st : Student) (u : UpdateData) : Student :=
  { st with
    name := (u.name.map trimStr).getD st.name
    email := (u.email.map (fun e => lowerStr (trimStr e))).getD st.email
    course := (u.course.map trimStr).getD st.course
    feeStatus := u.feeStatus.getD st.feeStatus
    feeAmount := u.feeAmount.getD st.feeAmount
    lastFeePayment :=
      match u.lastFeePayment with
      | some t => some t
      | none => st.lastFeePayment }

/-- Option `runValidators: true`: the field validators of the *updated* paths. -/
def updateValid (u : UpdateData) : Bool :=
  (match u.name with
   | none => true
   | some n =>
       let t := trimStr n
       t != "" && decide (2 ≤ t.length) && decide (t.length ≤ 100))
  && (match u.email with
      | none => true
      | some e => schemaEmailMatch (lowerStr (trimStr e)))
  && (match u.course with
      | none => true
      | some c => courseCatalog.contains (trimStr c))
  && (match u.feeStatus with
      | none => true
      | some s => s == "paid" || s == "pending" || s == "overdue")
  && (match u.feeAmount with
      | none => true
      | some a => decide (0 ≤ a) && decide (a ≤ 50000))

/-- The 200 response of a successful update. -/
def updatedResponse (d : Student) : ApiResponse :=
  { status := 200, success := true, message := "Student updated successfully", data := some d }

/-- The 409 response of the update route's email pre-check. -/
def updateConflictResponse : ApiResponse :=
  { status := 409, success := false, message := "Student with this email already exists" }

/-- The generic 500 response of `PUT /:id`'s catch block. -/
def updateFailedResponse : ApiResponse :=
  { status := 500, success := false, message := "Failed to update student" }

/-- The `PUT /:id` route: middleware, `findById`, email-uniqueness pre-check when the
email changes, then `findByIdAndUpdate` with update validators. -/
def updateOp (id : Nat) (u0 : UpdateData) (db : List Student) : ApiResponse × List Student :=
  let errs := routeValidateUpdate u0
  if errs.isEmpty then
    let u := sanitizeUpdate u0
    match findById db id with
    | none => (notFoundResponse, db)
    | some st =>
        if (match u.email with
            | some e => e != st.email && db.any (fun r => r.email == e)
            | none => false) then
          (updateConflictResponse, db)
        else if updateValid u then
          let st2 := mergeUpdate st u
          (updatedResponse st2, replaceById db id st2)
        else (updateFailedResponse, db)
  else (validationFailedResponse errs, db)

/-- The 200 response of `PUT /:id/deactivate`. -/
def deactivatedResponse (d : Student) : ApiResponse :=
  { status := 200, success := true, message := "Student deactivated successfully", data := some d }

/-- The generic 500 response of `PUT /:id/deactivate`'s catch block. -/
def deactivateFailedResponse : ApiResponse :=
  { status := 500, success := false, message := "Failed to deactivate student" }

/-- The `PUT /:id/deactivate` route: `findById`, then `student.deactivate()`. -/
def deactivateOp (id : Nat) (now : JsDate) (db : List Student) : ApiResponse × List Student :=
  match findById db id with
  | none => (notFoundResponse, db)
  | some st =>
      match deactivateDoc now st with
      | none => (deactivateFailedResponse, db)
      | some st2 => (deactivatedResponse st2, replaceById db id st2)

/-- The 200 response of `PUT /:id/fee-paid`. -/
def feePaidResponse (d : Student) : ApiResponse :=
  { status := 200, success := true,
    message := "Student fee marked as paid successfully", data := some d }

/-- The generic 500 response of `PUT /:id/fee-paid`'s catch block. -/
def feePaidFailedResponse : ApiResponse :=
  { status := 500, success := false, message := "Failed to update fee status" }

/-- The `PUT /:id/fee-paid` route: `findById`, then `student.markFeePaid()`. -/
def feePaidOp (id : Nat) (now : JsDate) (db : List Student) : ApiResponse × List Student :=
  match findById db id with
  | none => (notFoundResponse, db)
  | some st =>
      match markFeePaid now st with
      | none => (feePaidFailedResponse, db)
      | some st2 => (feePaidResponse st2, replaceById db id st2)

/-! ### The list route (`GET /`) -/

/-- Query parameters of `GET /`, with the handler's defaults;
`page`/`limit` are modelled after `parseInt`. -/
structure ListParams where
  page : Nat := 1
  limit : Nat := 10
  course : Option String := none
  feeStatus : Option String := none
  search : Option String := none
  sortBy : String := "createdAt"
  sortOrder : String := "desc"
  isActive : String := "true"
  deriving Repr

/-- The `filter` object the handler builds: `isActive` unless the param is
"all", plus `course` / `feeStatus` when the params are truthy (a present
empty string is falsy in JavaScript and adds no constraint). -/
def buildFilter (p : ListParams) (r : Student) : Bool :=
  (p.isActive == "all" || r.isActive == (p.isActive == "true"))
  && (match p.course with
      | none => true
      | some c => c == "" || r.course == c)
  && (match p.feeStatus with
      | none => true
      | some s => s == "" || r.feeStatus == s)

/-- Truthiness of `if (search)`: the search branch is taken exactly when the param is
present and truthy (non-empty). -/
def effSearch (p : ListParams) : Option String :=
  match p.search with
  | none => none
  | some s => if s == "" then none else some s

/-- The documents the handler's query draws from: `searchStudents(search)`
replaces the filter query entirely when a search term is present. -/
def effMatches (p : ListParams) (db : List Student) : List Student :=
  match effSearch p with
  | some s => searchStudents s db
  | none => db.filter (buildFilter p)

/-- The `sortObj[sortBy] = 1` comparison for the sortable paths; a `sortBy`
naming no stored path leaves all documents equally ranked (natural
order under a stable sort). -/
def sortKeyLe (sortBy : String) (a b : Student) : Bool :=
  match sortBy with
  | "createdAt" => decide (a.createdAt ≤ b.createdAt)
  | "joinDate" => decide (a.joinDate.key ≤ b.joinDate.key)
  | "feeAmount" => decide (a.feeAmount ≤ b.feeAmount)
  | "name" => decide (a.name ≤ b.name)
  | "email" => decide (a.email ≤ b.email)
  | "course" => decide (a.course ≤ b.course)
  | "feeStatus" => decide (a.feeStatus ≤ b.feeStatus)
  | _ => true

/-- Insert into a sorted list, keeping earlier elements first on ties. -/
def insertLe {α : Type} (le : α → α → Bool) (a : α) : List α → List α
  | [] => [a]
  | b :: bs => if le a b then a :: b :: bs else b :: insertLe le a bs

/-- Stable insertion sort, modelling the store's `.sort(...)` (any stable
comparison sort; the claims depend only on it permuting its input). -/
def sortBy' {α : Type} (le : α → α → Bool) : List α → List α
  | [] => []
  | a :: as => insertLe le a (sortBy' le as)

/-- Models `.sort(sortObj)`: ascending for `sortOrder === "asc"`, else descending. -/
def applySort (sortBy sortOrder : String) (l : List Student) : List Student :=
  if sortOrder == "asc" then sortBy' (sortKeyLe sortBy) l
  else sortBy' (fun a b => sortKeyLe sortBy b a) l

/-- Models `.skip((page - 1) * limit).limit(limit)`. -/
def paginate (page limit : Nat) (l : List Student) : List Student :=
  (l.drop ((page - 1) * limit)).take limit

/-- The pagination metadata object of the list response. -/
structure Pagination where
  currentPage : Nat
  totalPages : Nat
  totalStudents : Nat
  studentsPerPage : Nat
  hasNextPage : Bool
  hasPrevPage : Bool
  deriving DecidableEq, Repr

/-- The `GET /` handler: executes the (possibly search-replaced) query with
sort and pagination, but counts `total` with `countDocuments(filter)` —
the filter object, not the executed query. -/
def listOp (p : ListParams) (db : List Student) : List Student × Pagination :=
  let total := (db.filter (buildFilter p)).length
  let totalPages := (total + p.limit - 1) / p.limit
  let students := paginate p.page p.limit (applySort p.sortBy p.sortOrder (effMatches p db))
  (students,
   { currentPage := p.page
     totalPages := totalPages
     totalStudents := total
     studentsPerPage := p.limit
     hasNextPage := decide (p.page < totalPages)
     hasPrevPage := decide (p.page > 1) })

/-- Sort key for the overdue route's `.sort({nextFeePayment: 1})`
(documents without the field first, as in MongoDB). -/
def optDateKey : Option JsDate → Nat
  | none => 0
  | some d => d.key + 1

/-- The `GET /fees/overdue` route: the helper's result, sorted by `nextFeePayment`
ascending and paginated. -/
def overdueRouteStudents (page limit : Nat) (today : JsDate)
    (db : List Student) : List Student :=
  paginate page limit (sortBy'
    (fun a b => decide (optDateKey a.nextFeePayment ≤ optDateKey b.nextFeePayment))
    (getOverdueStudents today db))

/-! ### Concrete fixtures (used by counterexamples and witnesses) -/

/-- Date 2024-01-15, a join date in the past. -/
def sampleJoin : JsDate := ⟨2024, 0, 15, 0⟩

/-- Date 2024-06-01, the clock time at which the sample requests are served. -/
def sampleNow : JsDate := ⟨2024, 5, 1, 0⟩

/-- A fully valid create body. -/
def baseInput : StudentInput :=
  { name := "Rahul Kumar"
    email := "rahul@email.com"
    phone := "9876543210"
    address := "123 Main Street, Delhi"
    course := "Mathematics - Class 12"
    batchTime := "10:00 AM"
    feeAmount := 5000
    guardianName := "Suresh Kumar"
    guardianPhone := "9876543211"
    joinDate := some sampleJoin }

/-- Valid create body with `feeStatus: "paid"` and no `lastFeePayment`. -/
def paidInput : StudentInput := { baseInput with feeStatus := some "paid" }

/-- Create body whose course is not in the catalog. -/
def astroInput : StudentInput := { baseInput with course := "Astrology - Class 5" }

/-- Create body with an out-of-range fee amount. -/
def fee60kInput : StudentInput := { baseInput with feeAmount := 60000 }

/-- Create body whose email has a 4-letter final domain label. -/
def infoInput : StudentInput := { baseInput with email := "john@example.info" }

/-- A second valid create body sharing `baseInput`'s email. -/
def dupInput : StudentInput :=
  { baseInput with name := "Priya Patel", phone := "9876500000",
                   guardianName := "Sita Patel", guardianPhone := "9876500001" }

/-- The collection after creating `baseInput`: one active pending student
with id 1, no `lastFeePayment`, `nextFeePayment` = joinDate + 1 month. -/
def sampleDb : List Student := (routeCreate baseInput sampleNow 1 []).2

/-- The list parameters of a plain search request. -/
def searchParams : ListParams := { search := some "rahul" }

/-- The single document stored by creating `baseInput`: `sampleDb` is
`[sampleStudent]`. -/
def sampleStudent : Student :=
  preSave true true sampleNow (buildDoc 1 (sanitizeInput baseInput) sampleNow)

/-- The document `markFeePaid` produces from `sampleStudent` at `sampleNow`. -/
def paidDoc : Student :=
  { sampleStudent with
      feeStatus := "paid"
      lastFeePayment := some sampleNow
      nextFeePayment := some (jsAddMonth sampleNow) }

/-- The document `deactivate` produces from `sampleStudent`. -/
def deacDoc : Student := { sampleStudent with isActive := false }

/-- The document stored by a valid create of `paidInput` at `sampleNow`. -/
def c2Doc : Student :=
  preSave true true sampleNow (buildDoc 1 (sanitizeInput paidInput) sampleNow)

/-- The spec's invariant: every stored "paid" record carries a
`lastFeePayment`. -/
def paidInv (db : List Student) : Prop :=
  ∀ r ∈ db, r.feeStatus = "paid" → r.lastFeePayment ≠ none

/-! ### Helper lemmas -/

theorem mem_insertLe {α : Type} (le : α → α → Bool) (a x : α) (l : List α) :
    x ∈ insertLe le a l ↔ x = a ∨ x ∈ l := by
  induction l with
  | nil => simp [insertLe]
  | cons b bs ih =>
      simp only [insertLe]
      split
      · simp
      · simp only [List.mem_cons, ih]
        tauto

theorem mem_sortBy' {α : Type} (le : α → α → Bool) (x : α) (l : List α) :
    x ∈ sortBy' le l ↔ x ∈ l := by
  induction l with
  | nil => simp [sortBy']
  | cons a as ih => simp [sortBy', mem_insertLe, ih]

theorem length_insertLe {α : Type} (le : α → α → Bool) (a : α) (l : List α) :
    (insertLe le a l).length = l.length + 1 := by
  induction l with
  | nil => rfl
  | cons b bs ih =>
      simp only [insertLe]
      split
      · rfl
      · simp [ih]

theorem length_sortBy' {α : Type} (le : α → α → Bool) (l : List α) :
    (sortBy' le l).length = l.length := by
  induction l with
  | nil => rfl
  | cons a as ih => simp [sortBy', length_insertLe, ih]

theorem mem_applySort (sb so : String) (x : Student) (l : List Student) :
    x ∈ applySort sb so l ↔ x ∈ l := by
  unfold applySort
  split <;> exact mem_sortBy' _ _ _

theorem length_applySort (sb so : String) (l : List Student) :
    (applySort sb so l).length = l.length := by
  unfold applySort
  split <;> exact length_sortBy' _ _

theorem mem_paginate (page limit : Nat) (x : Student) (l : List Student) :
    x ∈ paginate page limit l → x ∈ l := by
  intro h
  exact List.drop_subset _ _ (List.take_subset _ _ h)

theorem preSave_id (a b : Bool) (now : JsDate) (d : Student) :
    (preSave a b now d).id = d.id := by
  unfold preSave
  dsimp only
  split <;> split <;> rfl

theorem preSave_isActive (a b : Bool) (now : JsDate) (d : Student) :
    (preSave a b now d).isActive = d.isActive := by
  unfold preSave
  dsimp only
  split <;> split <;> rfl

theorem preSave_feeStatus (a b : Bool) (now : JsDate) (d : Student) :
    (preSave a b now d).feeStatus = d.feeStatus := by
  unfold preSave
  dsimp only
  split <;> split <;> rfl

theorem preSave_email (a b : Bool) (now : JsDate) (d : Student) :
    (preSave a b now d).email = d.email := by
  unfold preSave
  dsimp only
  split <;> split <;> rfl

theorem preSave_paid_stamped (a b : Bool) (now : JsDate) (d : Student) :
    (preSave a b now d).feeStatus = "paid" → (preSave a b now d).lastFeePayment ≠ none := by
  unfold preSave
  dsimp only
  split <;> split
  case isTrue.isTrue => intro _; simp
  case isTrue.isFalse h1 h2 =>
    intro hpaid
    rw [hpaid] at h2
    simp [Option.isNone_iff_eq_none] at h2
    exact h2
  case isFalse.isTrue => intro _; simp
  case isFalse.isFalse h1 h2 =>
    intro hpaid
    rw [hpaid] at h2
    simp [Option.isNone_iff_eq_none] at h2
    exact h2

theorem saveDoc_eq (a b : Bool) (now : JsDate) (d d2 : Student)
    (h : saveDoc a b now d = some d2) : d2 = preSave a b now d := by
  unfold saveDoc at h
  split at h
  · exact (Option.some.injEq _ _ ▸ h).symm
  · exact absurd h (by simp)

theorem findById_id_eq (db : List Student) (id : Nat) (st : Student)
    (h : findById db id = some st) : st.id = id := by
  have := List.find?_some h
  simpa using this

theorem findById_replaceById (db : List Student) (id : Nat) (st d : Student)
    (h : findById db id = some st) (hd : d.id = id) :
    findById (replaceById db id d) id = some d := by
  induction db with
  | nil => simp [findById] at h
  | cons x xs ih =>
      by_cases hx : (x.id == id) = true
      · have hgoal : replaceById (x :: xs) id d = d :: replaceById xs id d := by
          unfold replaceById
          rw [List.map_cons, if_pos hx]
        rw [hgoal]
        have hdid : (d.id == id) = true := by simp [hd]
        unfold findById
        simp only [List.find?_cons, hdid]
      · have hx3 : (x.id == id) = false := by simpa using hx
        have hgoal : replaceById (x :: xs) id d = x :: replaceById xs id d := by
          unfold replaceById
          rw [List.map_cons, if_neg hx]
        rw [hgoal]
        have hh : findById xs id = some st := by
          unfold findById at h
          simp only [List.find?_cons, hx3] at h
          exact h
        unfold findById at ih ⊢
        simp only [List.find?_cons, hx3]
        exact ih hh

theorem mem_replaceById (db : List Student) (id : Nat) (d r : Student)
    (h : r ∈ replaceById db id d) : r = d ∨ (r ∈ db ∧ (r.id == id) = false) := by
  unfold replaceById at h
  rw [List.mem_map] at h
  obtain ⟨r0, hr0, heq⟩ := h
  by_cases hx : (r0.id == id) = true
  · left
    rw [← heq]
    simp [hx]
  · right
    rw [if_neg hx] at heq
    rw [← heq]
    exact ⟨hr0, by simpa using hx⟩

theorem length_replaceById (db : List Student) (id : Nat) (d : Student) :
    (replaceById db id d).length = db.length := by
  unfold replaceById
  rw [List.length_map]

theorem preSave_next_unchanged (now : JsDate) (d : Student) :
    (preSave false false now d).nextFeePayment = d.nextFeePayment := by
  unfold preSave
  dsimp only
  split
  · next hcond => simp at hcond
  · split <;> rfl

theorem preSave_new_next (b : Bool) (now : JsDate) (d : Student) :
    (preSave true b now d).nextFeePayment
      = some (jsAddMonth (d.lastFeePayment.getD d.joinDate)) := by
  unfold preSave
  dsimp only
  rw [if_pos (show (true || b) = true by simp)]
  split <;> rfl

theorem preSave_stamp (a b : Bool) (now : JsDate) (d : Student)
    (hp : d.feeStatus = "paid") (hn : d.lastFeePayment = none) :
    (preSave a b now d).lastFeePayment = some now := by
  unfold preSave
  dsimp only
  split <;> rw [if_pos (by simp [hp, hn])]

theorem preSave_no_stamp (a b : Bool) (now : JsDate) (d : Student)
    (hn : d.lastFeePayment ≠ none) :
    (preSave a b now d).lastFeePayment = d.lastFeePayment := by
  unfold preSave
  dsimp only
  split <;> rw [if_neg (by simp [Option.isNone_iff_eq_none, hn])]

theorem preSave_joinDate (a b : Bool) (now : JsDate) (d : Student) :
    (preSave a b now d).joinDate = d.joinDate := by
  unfold preSave
  dsimp only
  split <;> split <;> rfl

theorem routeCreate_created (i : StudentInput) (now : JsDate) (nid : Nat)
    (db : List Student) (doc : Student)
    (h : (routeCreate i now nid db).1 = createdResponse doc) :
    doc = preSave true true now (buildDoc nid (sanitizeInput i) now) := by
  unfold routeCreate at h
  by_cases he : (routeValidate i).isEmpty = true
  case neg =>
    rw [if_neg he] at h
    simp [validationFailedResponse, createdResponse] at h
  case pos =>
    rw [if_pos he] at h
    unfold createOp at h
    by_cases hpre : ((db.find? (fun r => r.email == (sanitizeInput i).email)).isSome) = true
    case pos =>
      rw [if_pos hpre] at h
      simp [precheckConflictResponse, createdResponse] at h
    case neg =>
      rw [if_neg hpre] at h
      unfold saveDoc at h
      dsimp only at h
      by_cases hm : mongooseValid (buildDoc nid (sanitizeInput i) now) = true
      case neg =>
        rw [if_neg hm] at h
        simp [createFailedResponse, createdResponse] at h
      case pos =>
        rw [if_pos hm] at h
        dsimp only at h
        by_cases hd : (db.any (fun r =>
            r.email == (preSave true true now (buildDoc nid (sanitizeInput i) now)).email)) = true
        case pos =>
          rw [if_pos hd] at h
          simp [dupKeyConflictResponse, createdResponse] at h
        case neg =>
          rw [if_neg hd] at h
          simp only [createdResponse, ApiResponse.mk.injEq, Option.some.injEq] at h
          exact h.2.2.2.2.symm

theorem routeCreate_db (i : StudentInput) (now : JsDate) (nid : Nat) (db : List Student) :
    (routeCreate i now nid db).2 = db
    ∨ (routeCreate i now nid db).2
        = db ++ [preSave true true now (buildDoc nid (sanitizeInput i) now)] := by
  unfold routeCreate
  by_cases he : (routeValidate i).isEmpty = true
  case neg => rw [if_neg he]; left; rfl
  case pos =>
    rw [if_pos he]
    unfold createOp saveDoc
    dsimp only
    by_cases hpre : ((db.find? (fun r => r.email == (sanitizeInput i).email)).isSome) = true
    case pos => rw [if_pos hpre]; left; rfl
    case neg =>
      rw [if_neg hpre]
      by_cases hm : mongooseValid (buildDoc nid (sanitizeInput i) now) = true
      case neg => rw [if_neg hm]; left; rfl
      case pos =>
        rw [if_pos hm]
        dsimp only
        by_cases hd : (db.any fun r =>
            r.email == (preSave true true now (buildDoc nid (sanitizeInput i) now)).email) = true
        case pos => rw [if_pos hd]; left; rfl
        case neg => rw [if_neg hd]; right; rfl

theorem feePaidOp_db (id : Nat) (now : JsDate) (db : List Student) :
    (feePaidOp id now db).2 = db
    ∨ ∃ st, findById db id = some st
        ∧ (feePaidOp id now db).2 = replaceById db id
            (preSave false true now { st with feeStatus := "paid", lastFeePayment := some now }) := by
  unfold feePaidOp
  cases hf : findById db id with
  | none => left; rfl
  | some st =>
      dsimp only
      unfold markFeePaid saveDoc
      by_cases hm : mongooseValid { st with feeStatus := "paid", lastFeePayment := some now } = true
      case neg => rw [if_neg hm]; left; rfl
      case pos =>
        rw [if_pos hm]
        right
        exact ⟨st, rfl, rfl⟩

theorem deactivateOp_db (id : Nat) (now : JsDate) (db : List Student) :
    (deactivateOp id now db).2 = db
    ∨ ∃ st, findById db id = some st
        ∧ (deactivateOp id now db).2 = replaceById db id
            (preSave false false now { st with isActive := false }) := by
  unfold deactivateOp
  cases hf : findById db id with
  | none => left; rfl
  | some st =>
      dsimp only
      unfold deactivateDoc saveDoc
      by_cases hm : mongooseValid { st with isActive := false } = true
      case neg => rw [if_neg hm]; left; rfl
      case pos =>
        rw [if_pos hm]
        right
        exact ⟨st, rfl, rfl⟩

theorem bool_and_left {a b : Bool} (h : (a && b) = true) : a = true := by
  simp only [Bool.and_eq_true] at h
  exact h.1

theorem bool_and_right {a b : Bool} (h : (a && b) = true) : b = true := by
  simp only [Bool.and_eq_true] at h
  exact h.2

/-! ### The claims -/

/-- C1 counterexample: `PUT /:id` commits through `findByIdAndUpdate`, which
does not run the `pre("save")` hook.  On the stored sample student, an update
that changes `lastFeePayment` to `sampleNow` succeeds (status 200) and commits,
yet the stored `nextFeePayment` is still one month after the join date, not one
month after the new `lastFeePayment`. -/
theorem update_hook_counterexample :
    (updateOp 1 { lastFeePayment := some sampleNow } sampleDb).1.status = 200
    ∧ ((updateOp 1 { lastFeePayment := some sampleNow } sampleDb).2.map
        Student.lastFeePayment) = [some sampleNow]
    ∧ ((updateOp 1 { lastFeePayment := some sampleNow } sampleDb).2.map
        Student.nextFeePayment) = [some (jsAddMonth sampleJoin)]
    ∧ some (jsAddMonth sampleJoin) ≠ some (jsAddMonth sampleNow) := by decide

/-- C1 amended: the save-based mutators re-run the derivation hook inside the
persisting call — `markFeePaid` stores `feeStatus = "paid"`,
`lastFeePayment = now` and `nextFeePayment = now + 1 month`, and `deactivate`
leaves `nextFeePayment` untouched — but the update route commits via
`findByIdAndUpdate` without the hook: after a successful update the stored
`nextFeePayment` equals its previous value even when `lastFeePayment` changed,
and `lastFeePayment` is exactly the updated (or previous) value, never
auto-stamped. -/
theorem mutators_hook_amended :
    (∀ now st st2, markFeePaid now st = some st2 →
        st2.feeStatus = "paid" ∧ st2.lastFeePayment = some now
        ∧ st2.nextFeePayment = some (jsAddMonth now))
    ∧ (∀ now st st2, deactivateDoc now st = some st2 →
        st2.isActive = false ∧ st2.nextFeePayment = st.nextFeePayment)
    ∧ (∀ id u db st0, findById db id = some st0 →
        (updateOp id u db).1.status = 200 →
        ((findById (updateOp id u db).2 id).map Student.nextFeePayment
            = some st0.nextFeePayment
          ∧ (u.lastFeePayment = none →
              (findById (updateOp id u db).2 id).map Student.lastFeePayment
                = some st0.lastFeePayment)
          ∧ (u.lastFeePayment ≠ none →
              (findById (updateOp id u db).2 id).map Student.lastFeePayment
                = some u.lastFeePayment))) := by
  refine ⟨?_, ?_, ?_⟩
  · intro now st st2 h
    have h2 := saveDoc_eq _ _ _ _ _ h
    subst h2
    unfold preSave
    simp
  · intro now st st2 h
    have h2 := saveDoc_eq _ _ _ _ _ h
    subst h2
    refine ⟨?_, ?_⟩
    · rw [preSave_isActive]
    · exact preSave_next_unchanged now _
  · intro id u db st0 hf hst
    unfold updateOp at hst ⊢
    by_cases he : (routeValidateUpdate u).isEmpty = true
    case neg =>
      rw [if_neg he] at hst
      simp [validationFailedResponse] at hst
    case pos =>
      rw [if_pos he] at hst ⊢
      simp only [hf] at hst ⊢
      by_cases hc : (match (sanitizeUpdate u).email with
          | some e => e != st0.email && db.any (fun r => r.email == e)
          | none => false) = true
      case pos =>
        rw [if_pos hc] at hst
        simp [updateConflictResponse] at hst
      case neg =>
        rw [if_neg hc] at hst ⊢
        by_cases hv : updateValid (sanitizeUpdate u) = true
        case neg =>
          rw [if_neg hv] at hst
          simp [updateFailedResponse] at hst
        case pos =>
          rw [if_pos hv] at hst ⊢
          have hid : (mergeUpdate st0 (sanitizeUpdate u)).id = id := by
            have := findById_id_eq _ _ _ hf
            simpa [mergeUpdate] using this
          have hrep := findById_replaceById db id st0
            (mergeUpdate st0 (sanitizeUpdate u)) hf hid
          refine ⟨?_, ?_, ?_⟩
          · show (findById (replaceById db id (mergeUpdate st0 (sanitizeUpdate u))) id).map
                Student.nextFeePayment = some st0.nextFeePayment
            rw [hrep]
            rfl
          · intro hn
            show (findById (replaceById db id (mergeUpdate st0 (sanitizeUpdate u))) id).map
                Student.lastFeePayment = some st0.lastFeePayment
            rw [hrep]
            simp [mergeUpdate, sanitizeUpdate, hn]
          · intro hn
            obtain ⟨t, ht⟩ := Option.ne_none_iff_exists'.mp hn
            show (findById (replaceById db id (mergeUpdate st0 (sanitizeUpdate u))) id).map
                Student.lastFeePayment = some u.lastFeePayment
            rw [hrep]
            simp [mergeUpdate, sanitizeUpdate, ht]

/-- C1 witness: the amended theorem applied to the sample student — the
fee-paid and deactivate mutators at `sampleNow`, and a committed update that
changes `lastFeePayment`. -/
theorem mutators_hook_amended_witness :
    (paidDoc.feeStatus = "paid" ∧ paidDoc.lastFeePayment = some sampleNow
      ∧ paidDoc.nextFeePayment = some (jsAddMonth sampleNow))
    ∧ (deacDoc.isActive = false ∧ deacDoc.nextFeePayment = sampleStudent.nextFeePayment)
    ∧ ((findById (updateOp 1 { lastFeePayment := some sampleNow } sampleDb).2 1).map
        Student.nextFeePayment = some sampleStudent.nextFeePayment)
    ∧ ((findById (updateOp 1 { lastFeePayment := some sampleNow } sampleDb).2 1).map
        Student.lastFeePayment
          = some ({ lastFeePayment := some sampleNow } : UpdateData).lastFeePayment) :=
  ⟨mutators_hook_amended.1 sampleNow sampleStudent paidDoc (by decide),
   mutators_hook_amended.2.1 sampleNow sampleStudent deacDoc (by decide),
   (mutators_hook_amended.2.2 1 { lastFeePayment := some sampleNow } sampleDb sampleStudent
      (by decide) (by decide)).1,
   (mutators_hook_amended.2.2 1 { lastFeePayment := some sampleNow } sampleDb sampleStudent
      (by decide) (by decide)).2.2 (by simp)⟩

/-- C2 counterexample: a valid create with `feeStatus: "paid"`, no
`lastFeePayment` and join date 2024-01-15, saved at 2024-06-01: the stored
record has `lastFeePayment = 2024-06-01` (stamped) but
`nextFeePayment = 2024-02-15` = joinDate + 1 month, which differs from
lastFeePayment + 1 month — the derivation ran before the paid-stamp. -/
theorem create_paid_stamp_counterexample :
    (routeCreate paidInput sampleNow 1 []).1.status = 201
    ∧ ((routeCreate paidInput sampleNow 1 []).2.map
        (fun d => (d.lastFeePayment, d.nextFeePayment)))
      = [(some sampleNow, some (jsAddMonth sampleJoin))]
    ∧ jsAddMonth sampleJoin ≠ jsAddMonth sampleNow := by decide

/-- C2 amended: for every create the router answers with `201 created`, the
stored record has `nextFeePayment` = one calendar month after the request's
`lastFeePayment` when supplied, else one month after `joinDate` (defaulted to
the save time); a create that sets `feeStatus` "paid" without `lastFeePayment`
gets `lastFeePayment` stamped with the save time, but only after the
derivation, so `nextFeePayment` stays joinDate-based; a supplied
`lastFeePayment` is stored unchanged. -/
theorem create_derivation_amended (i : StudentInput) (now : JsDate) (nid : Nat)
    (db : List Student) (doc : Student)
    (h : (routeCreate i now nid db).1 = createdResponse doc) :
    doc.nextFeePayment = some (jsAddMonth (i.lastFeePayment.getD (i.joinDate.getD now)))
    ∧ doc.joinDate = i.joinDate.getD now
    ∧ (i.feeStatus = some "paid" → i.lastFeePayment = none → doc.lastFeePayment = some now)
    ∧ (i.lastFeePayment ≠ none → doc.lastFeePayment = i.lastFeePayment) := by
  have hdoc := routeCreate_created i now nid db doc h
  subst hdoc
  have h1 : (buildDoc nid (sanitizeInput i) now).lastFeePayment = i.lastFeePayment := rfl
  have h2 : (buildDoc nid (sanitizeInput i) now).joinDate = i.joinDate.getD now := rfl
  refine ⟨?_, ?_, ?_, ?_⟩
  · rw [preSave_new_next, h1, h2]
  · rw [preSave_joinDate, h2]
  · intro hp hn
    exact preSave_stamp true true now _ (by simp [buildDoc, sanitizeInput, hp]) (h1.trans hn)
  · intro hn
    rw [preSave_no_stamp true true now _ (by rw [h1]; exact hn), h1]

/-- C2 witness: the amended theorem applied to the concrete paid create
`paidInput` stored at `sampleNow`. -/
theorem create_derivation_amended_witness :
    c2Doc.nextFeePayment
      = some (jsAddMonth (paidInput.lastFeePayment.getD (paidInput.joinDate.getD sampleNow)))
    ∧ c2Doc.joinDate = paidInput.joinDate.getD sampleNow
    ∧ (paidInput.feeStatus = some "paid" → paidInput.lastFeePayment = none →
        c2Doc.lastFeePayment = some sampleNow)
    ∧ (paidInput.lastFeePayment ≠ none → c2Doc.lastFeePayment = paidInput.lastFeePayment) :=
  create_derivation_amended paidInput sampleNow 1 [] c2Doc (by decide)

/-- C3 counterexample: starting from a reachable store (one pending student
with no `lastFeePayment`), the API sequence create-then-update with body
`{feeStatus: "paid"}` succeeds (status 200) and leaves a stored record with
`feeStatus = "paid"` and `lastFeePayment` unset — the update path bypasses the
stamping hook, violating the invariant. -/
theorem paid_invariant_counterexample :
    (updateOp 1 { feeStatus := some "paid" } sampleDb).1.status = 200
    ∧ ((updateOp 1 { feeStatus := some "paid" } sampleDb).2.map
        (fun d => (d.feeStatus, d.lastFeePayment))) = [("paid", none)] := by decide

/-- C3 amended: the paid-implies-lastFeePayment invariant is preserved by
create, mark-fee-paid, deactivate and mark-fee-overdue (each persists through
`save()`, whose hook stamps `lastFeePayment` whenever the committed record is
"paid" without one), but not by update, which is excluded here and refuted by
the counterexample. -/
theorem paid_invariant_amended (db : List Student) (h : paidInv db) :
    (∀ i now nid, paidInv (routeCreate i now nid db).2)
    ∧ (∀ id now, paidInv (feePaidOp id now db).2)
    ∧ (∀ id now, paidInv (deactivateOp id now db).2)
    ∧ (∀ st now st2, markFeeOverdue now st = some st2 →
        paidInv (replaceById db st.id st2)) := by
  have hrep : ∀ id st2, (st2.feeStatus = "paid" → st2.lastFeePayment ≠ none) →
      paidInv (replaceById db id st2) := by
    intro id st2 hst2 r hr hp
    rcases mem_replaceById db id st2 r hr with heq | ⟨hin, _⟩
    · subst heq; exact hst2 hp
    · exact h r hin hp
  refine ⟨?_, ?_, ?_, ?_⟩
  · intro i now nid
    rcases routeCreate_db i now nid db with hdb | hdb
    · rw [hdb]; exact h
    · rw [hdb]
      intro r hr hp
      rcases List.mem_append.mp hr with hin | hin
      · exact h r hin hp
      · have heq : r = preSave true true now (buildDoc nid (sanitizeInput i) now) := by
          simpa using hin
        subst heq
        exact preSave_paid_stamped _ _ _ _ hp
  · intro id now
    rcases feePaidOp_db id now db with hdb | ⟨st, _, hdb⟩
    · rw [hdb]; exact h
    · rw [hdb]
      exact hrep id _ (preSave_paid_stamped _ _ _ _)
  · intro id now
    rcases deactivateOp_db id now db with hdb | ⟨st, _, hdb⟩
    · rw [hdb]; exact h
    · rw [hdb]
      exact hrep id _ (preSave_paid_stamped _ _ _ _)
  · intro st now st2 hm
    unfold markFeeOverdue at hm
    have heq := saveDoc_eq _ _ _ _ _ hm
    subst heq
    exact hrep st.id _ (preSave_paid_stamped _ _ _ _)

/-- C3 witness: the amended theorem applied to the sample store, for a
create, the fee-paid route and the deactivate route. -/
theorem paid_invariant_amended_witness :
    paidInv (routeCreate paidInput sampleNow 2 sampleDb).2
    ∧ paidInv (feePaidOp 1 sampleNow sampleDb).2
    ∧ paidInv (deactivateOp 1 sampleNow sampleDb).2 :=
  ⟨(paid_invariant_amended sampleDb (by unfold paidInv; decide)).1 paidInput sampleNow 2,
   (paid_invariant_amended sampleDb (by unfold paidInv; decide)).2.1 1 sampleNow,
   (paid_invariant_amended sampleDb (by unfold paidInv; decide)).2.2.1 1 sampleNow⟩

/-- C4: when a (truthy) search term is present, the list handler's query is
exactly the case-insensitive four-field substring search restricted to active
records — it replaces the filter built from the `course` / `feeStatus` /
`isActive` parameters — so every returned record matches the search predicate
and the returned page is identical whatever those three parameters are. -/
theorem list_search_priority (p : ListParams) (db : List Student) (s : String)
    (hs : effSearch p = some s) :
    effMatches p db = db.filter (searchPred s)
    ∧ ((listOp p db).1.all (searchPred s)) = true
    ∧ (∀ c f a, (listOp { p with course := c, feeStatus := f, isActive := a } db).1
        = (listOp p db).1) := by
  have hm : effMatches p db = db.filter (searchPred s) := by
    unfold effMatches
    rw [hs]
    rfl
  refine ⟨hm, ?_, ?_⟩
  · rw [List.all_eq_true]
    intro r hr
    have h1 : r ∈ effMatches p db := by
      have h2 := mem_paginate _ _ _ _ hr
      rw [mem_applySort] at h2
      exact h2
    rw [hm, List.mem_filter] at h1
    exact h1.2
  · intro c f a
    unfold listOp
    have hs2 : effSearch { p with course := c, feeStatus := f, isActive := a } = some s := hs
    have hm2 : effMatches { p with course := c, feeStatus := f, isActive := a } db
        = db.filter (searchPred s) := by
      unfold effMatches
      rw [hs2]
      rfl
    simp only [hm, hm2]

/-- C4 witness: the theorem applied to a search for "rahul" over the sample
store, with the course, feeStatus and isActive parameters varied. -/
theorem list_search_priority_witness :
    effMatches searchParams sampleDb = sampleDb.filter (searchPred "rahul")
    ∧ ((listOp searchParams sampleDb).1.all (searchPred "rahul")) = true
    ∧ (listOp { searchParams with
          course := some "Physics - Class 11"
          feeStatus := some "paid"
          isActive := "all" } sampleDb).1
        = (listOp searchParams sampleDb).1 :=
  ⟨(list_search_priority searchParams sampleDb "rahul" rfl).1,
   (list_search_priority searchParams sampleDb "rahul" rfl).2.1,
   (list_search_priority searchParams sampleDb "rahul" rfl).2.2 _ _ _⟩

/-- C5 counterexample: on a reachable one-student store, listing with search
term "zzz" matches nothing — the returned page is empty and the effective
query has zero matches — yet the pagination metadata reports
`totalStudents = 1`, because `countDocuments` is invoked with the
course/feeStatus/isActive filter object instead of the search query. -/
theorem list_total_ignores_search_counterexample :
    (listOp { search := some "zzz" } sampleDb).1 = []
    ∧ (searchStudents "zzz" sampleDb).length = 0
    ∧ (listOp { search := some "zzz" } sampleDb).2.totalStudents = 1 := by decide

/-- C5 amended: the pagination metadata of the list response reports
`totalStudents` as the count of records matching the course/feeStatus/isActive
filter object — never the search query, as the counterexample shows —
with `totalPages` = ceil(total / limit) (characterised by the two
inequalities), `hasNextPage` = (page < totalPages), `hasPrevPage` = (page > 1),
and a searchless request for a page beyond `totalPages` yields an empty record
list with this metadata rather than an error. -/
theorem pagination_metadata_amended (p : ListParams) (db : List Student)
    (hl : 0 < p.limit) :
    (listOp p db).2.totalStudents = (db.filter (buildFilter p)).length
    ∧ (listOp p db).2.totalStudents ≤ (listOp p db).2.totalPages * p.limit
    ∧ (listOp p db).2.totalPages * p.limit < (listOp p db).2.totalStudents + p.limit
    ∧ (listOp p db).2.hasNextPage = decide (p.page < (listOp p db).2.totalPages)
    ∧ (listOp p db).2.hasPrevPage = decide (1 < p.page)
    ∧ (listOp p db).2.currentPage = p.page
    ∧ (listOp p db).2.studentsPerPage = p.limit
    ∧ (effSearch p = none → (listOp p db).2.totalPages < p.page →
        (listOp p db).1 = []) := by
  set t := (db.filter (buildFilter p)).length with ht
  have h1 : (t + p.limit - 1) / p.limit * p.limit + (t + p.limit - 1) % p.limit
      = t + p.limit - 1 := Nat.div_add_mod' _ _
  have h2 : (t + p.limit - 1) % p.limit < p.limit := Nat.mod_lt _ hl
  refine ⟨rfl,
    show t ≤ (t + p.limit - 1) / p.limit * p.limit by omega,
    show (t + p.limit - 1) / p.limit * p.limit < t + p.limit by omega,
    rfl, rfl, rfl, rfl, ?_⟩
  intro hns hp
  have htp : (t + p.limit - 1) / p.limit < p.page := hp
  have hmlen : (effMatches p db).length = t := by
    unfold effMatches
    rw [hns, ht]
  show paginate p.page p.limit (applySort p.sortBy p.sortOrder (effMatches p db)) = []
  unfold paginate
  have hlen : (applySort p.sortBy p.sortOrder (effMatches p db)).length
      ≤ (p.page - 1) * p.limit := by
    rw [length_applySort, hmlen]
    have htp2 : (t + p.limit - 1) / p.limit ≤ p.page - 1 := by omega
    have := Nat.mul_le_mul_right p.limit htp2
    omega
  rw [List.drop_eq_nil_of_le hlen, List.take_nil]

/-- C5 witness: the amended theorem applied to a beyond-range request (page 5
of a one-student store): the metadata is correct and the page is empty. -/
theorem pagination_metadata_amended_witness :
    (listOp { page := 5 } sampleDb).2.totalStudents
      = (sampleDb.filter (buildFilter { page := 5 })).length
    ∧ (listOp { page := 5 } sampleDb).1 = [] :=
  ⟨(pagination_metadata_amended { page := 5 } sampleDb (by decide)).1,
   (pagination_metadata_amended { page := 5 } sampleDb (by decide)).2.2.2.2.2.2.2
     rfl (by decide)⟩

/-- C6: the overdue query returns exactly the stored records that are active
and either explicitly "overdue" or "pending" with `nextFeePayment` strictly
before the current time (a record with no `nextFeePayment` is excluded, as
`$lt` does not match a missing field), and every record served by the overdue
route satisfies that predicate. -/
theorem overdue_listing_exact (today : JsDate) (db : List Student) :
    (∀ r, r ∈ getOverdueStudents today db ↔
      r ∈ db ∧ r.isActive = true ∧
        (r.feeStatus = "overdue" ∨ (r.feeStatus = "pending" ∧
          ∃ d, r.nextFeePayment = some d ∧ d.jsLt today = true)))
    ∧ (∀ page limit, ((overdueRouteStudents page limit today db).all
        (overduePred today)) = true) := by
  constructor
  · intro r
    unfold getOverdueStudents overduePred
    rw [List.mem_filter]
    cases hn : r.nextFeePayment with
    | none => simp [hn]
    | some d => simp [hn]
  · intro page limit
    rw [List.all_eq_true]
    intro r hr
    have h1 : r ∈ getOverdueStudents today db := by
      have h2 := mem_paginate _ _ _ _ hr
      rw [mem_sortBy'] at h2
      exact h2
    exact (List.mem_filter.mp h1).2

/-- C7: creating a student whose normalized (lower-cased) email equals that
of any stored record yields the conflict response, identically whether the
explicit pre-insert lookup or the unique-index violation (the 11000 catch
branch) produces it — the two response constructions are equal — and two
creates with the same normalized email against a store free of that email
yield exactly one `201 created` (the first, stored) and one conflict (the
second, with the store unchanged, so the first record is unaffected). -/
theorem email_conflict_paths (d1 d2 : StudentInput) (db : List Student)
    (now1 now2 : JsDate) (n1 n2 : Nat)
    (h1v : routeValidate d1 = [])
    (h2v : routeValidate d2 = [])
    (hm1 : mongooseValid (buildDoc n1 (sanitizeInput d1) now1) = true)
    (hm2 : mongooseValid (buildDoc n2 (sanitizeInput d2) now2) = true)
    (hnorm : lowerStr d1.email = lowerStr d2.email)
    (hfresh1 : ∀ r ∈ db, ¬ r.email = lowerStr d1.email)
    (hfresh2 : ∀ r ∈ db, ¬ r.email = lowerStr (trimStr (lowerStr d1.email))) :
    precheckConflictResponse = dupKeyConflictResponse
    ∧ routeCreate d1 now1 n1 db
        = (createdResponse (preSave true true now1 (buildDoc n1 (sanitizeInput d1) now1)),
           db ++ [preSave true true now1 (buildDoc n1 (sanitizeInput d1) now1)])
    ∧ routeCreate d2 now2 n2 (routeCreate d1 now1 n1 db).2
        = (precheckConflictResponse, (routeCreate d1 now1 n1 db).2) := by
  set doc1 := preSave true true now1 (buildDoc n1 (sanitizeInput d1) now1) with hdoc1
  have hd1email : doc1.email = lowerStr (trimStr (lowerStr d1.email)) := by
    rw [hdoc1, preSave_email]
    rfl
  have hA : routeCreate d1 now1 n1 db = (createdResponse doc1, db ++ [doc1]) := by
    unfold routeCreate
    rw [if_pos (by rw [h1v]; rfl)]
    unfold createOp saveDoc
    dsimp only
    have hpre1 : (db.find? (fun r => r.email == (sanitizeInput d1).email)) = none := by
      rw [List.find?_eq_none]
      intro x hx
      simp only [beq_iff_eq]
      exact hfresh1 x hx
    rw [if_neg (by rw [hpre1]; simp)]
    rw [if_pos hm1]
    dsimp only
    rw [if_neg ?hdup]
    case hdup =>
      rw [List.any_eq_true]
      rintro ⟨r, hr, hbe⟩
      rw [beq_iff_eq] at hbe
      have : r.email = lowerStr (trimStr (lowerStr d1.email)) := by
        rw [hbe, ← hdoc1, hd1email]
      exact hfresh2 r hr this
  have hd2email : (buildDoc n2 (sanitizeInput d2) now2).email = doc1.email := by
    rw [hd1email]
    show lowerStr (trimStr (lowerStr d2.email)) = lowerStr (trimStr (lowerStr d1.email))
    rw [hnorm]
  have hB : routeCreate d2 now2 n2 (db ++ [doc1]) = (precheckConflictResponse, db ++ [doc1]) := by
    unfold routeCreate
    rw [if_pos (by rw [h2v]; rfl)]
    unfold createOp saveDoc
    dsimp only
    by_cases hpre : (((db ++ [doc1]).find? (fun r =>
        r.email == (sanitizeInput d2).email)).isSome) = true
    · rw [if_pos hpre]
    · rw [if_neg hpre]
      rw [if_pos hm2]
      dsimp only
      have hany : ((db ++ [doc1]).any fun r =>
          r.email == (preSave true true now2 (buildDoc n2 (sanitizeInput d2) now2)).email)
            = true := by
        rw [List.any_eq_true]
        refine ⟨doc1, by simp, ?_⟩
        rw [beq_iff_eq, preSave_email true true now2 (buildDoc n2 (sanitizeInput d2) now2),
          hd2email]
      rw [if_pos hany]
      unfold dupKeyConflictResponse precheckConflictResponse
      rfl
  refine ⟨rfl, hA, ?_⟩
  have h2 : (routeCreate d1 now1 n1 db).2 = db ++ [doc1] := by rw [hA]
  rw [h2]
  exact hB

/-- C7 witness: the theorem applied to two concrete valid creates sharing the
email "rahul@email.com" against an empty store. -/
theorem email_conflict_paths_witness :
    precheckConflictResponse = dupKeyConflictResponse
    ∧ routeCreate baseInput sampleNow 1 []
        = (createdResponse (preSave true true sampleNow (buildDoc 1 (sanitizeInput baseInput) sampleNow)),
           [] ++ [preSave true true sampleNow (buildDoc 1 (sanitizeInput baseInput) sampleNow)])
    ∧ routeCreate dupInput sampleNow 2 (routeCreate baseInput sampleNow 1 []).2
        = (precheckConflictResponse, (routeCreate baseInput sampleNow 1 []).2) :=
  email_conflict_paths baseInput dupInput [] sampleNow sampleNow 1 2
    (by decide) (by decide) (by decide) (by decide) (by decide)
    (by intro r hr; exact absurd hr (List.not_mem_nil r))
    (by intro r hr; exact absurd hr (List.not_mem_nil r))

/-- C8: after the deactivate route succeeds on a stored record, by-ID lookup
still returns the record (now with `isActive = false`) and the collection size
is unchanged (no physical removal), while the record no longer appears in
search, by-course, by-fee-status, overdue, or list results with the default
`isActive = "true"` parameter. -/
theorem deactivate_visibility (db : List Student) (id : Nat) (now : JsDate) (st : Student)
    (h : findById db id = some st)
    (hv : mongooseValid { st with isActive := false } = true) :
    (findById (deactivateOp id now db).2 id).map Student.isActive = some false
    ∧ (deactivateOp id now db).2.length = db.length
    ∧ (∀ term, ((searchStudents term (deactivateOp id now db).2).all
        (fun r => r.id != id)) = true)
    ∧ (∀ c, ((findByCourse c (deactivateOp id now db).2).all (fun r => r.id != id)) = true)
    ∧ (∀ s, ((findByFeeStatus s (deactivateOp id now db).2).all (fun r => r.id != id)) = true)
    ∧ (∀ today, ((getOverdueStudents today (deactivateOp id now db).2).all
        (fun r => r.id != id)) = true)
    ∧ (∀ p : ListParams, p.isActive = "true" →
        (((listOp p (deactivateOp id now db).2).1).all (fun r => r.id != id)) = true) := by
  have hres : (deactivateOp id now db).2
      = replaceById db id (preSave false false now { st with isActive := false }) := by
    unfold deactivateOp
    rw [h]
    dsimp only
    unfold deactivateDoc saveDoc
    rw [if_pos hv]
  set st2 := preSave false false now { st with isActive := false } with hst2
  have hact : st2.isActive = false := by rw [hst2, preSave_isActive]
  have hid : st2.id = id := by
    rw [hst2, preSave_id]
    exact findById_id_eq db id st h
  have hexcl : ∀ r, r ∈ replaceById db id st2 → r.isActive = true → (r.id != id) = true := by
    intro r hr hra
    rcases mem_replaceById db id st2 r hr with heq | ⟨_, hne⟩
    · subst heq
      rw [hact] at hra
      exact absurd hra (by simp)
    · simpa using hne
  rw [hres]
  refine ⟨?_, ?_, ?_, ?_, ?_, ?_, ?_⟩
  · rw [findById_replaceById db id st st2 h hid]
    simp [hact]
  · exact length_replaceById db id st2
  · intro term
    rw [List.all_eq_true]
    intro r hr
    have hmem := List.mem_filter.mp hr
    refine hexcl r hmem.1 ?_
    have h2 := hmem.2
    unfold searchPred at h2
    exact bool_and_left h2
  · intro c
    rw [List.all_eq_true]
    intro r hr
    have hmem := List.mem_filter.mp hr
    exact hexcl r hmem.1 (bool_and_right hmem.2)
  · intro s
    rw [List.all_eq_true]
    intro r hr
    have hmem := List.mem_filter.mp hr
    exact hexcl r hmem.1 (bool_and_right hmem.2)
  · intro today
    rw [List.all_eq_true]
    intro r hr
    have hmem := List.mem_filter.mp hr
    have h2 := hmem.2
    unfold overduePred at h2
    exact hexcl r hmem.1 (bool_and_left h2)
  · intro p hpa
    rw [List.all_eq_true]
    intro r hr
    have h1 : r ∈ effMatches p (replaceById db id st2) := by
      have h2 := mem_paginate _ _ _ _ hr
      rw [mem_applySort] at h2
      exact h2
    refine hexcl r ?_ ?_
    · unfold effMatches at h1
      cases he : effSearch p with
      | some s =>
          rw [he] at h1
          exact (List.mem_filter.mp h1).1
      | none =>
          rw [he] at h1
          exact (List.mem_filter.mp h1).1
    · unfold effMatches at h1
      cases he : effSearch p with
      | some s =>
          rw [he] at h1
          have h2 := (List.mem_filter.mp h1).2
          unfold searchPred at h2
          exact bool_and_left h2
      | none =>
          rw [he] at h1
          have h2 := (List.mem_filter.mp h1).2
          unfold buildFilter at h2
          rw [hpa] at h2
          have h3 := bool_and_left (bool_and_left h2)
          simpa using h3

/-- C8 witness: the theorem applied to deactivating the sample student, with
a matching search term, its own course and fee status, and the default list
parameters. -/
theorem deactivate_visibility_witness :
    (findById (deactivateOp 1 sampleNow sampleDb).2 1).map Student.isActive = some false
    ∧ (deactivateOp 1 sampleNow sampleDb).2.length = sampleDb.length
    ∧ ((searchStudents "rahul" (deactivateOp 1 sampleNow sampleDb).2).all
        (fun r => r.id != 1)) = true
    ∧ ((findByCourse "Mathematics - Class 12" (deactivateOp 1 sampleNow sampleDb).2).all
        (fun r => r.id != 1)) = true
    ∧ ((findByFeeStatus "pending" (deactivateOp 1 sampleNow sampleDb).2).all
        (fun r => r.id != 1)) = true
    ∧ ((getOverdueStudents sampleNow (deactivateOp 1 sampleNow sampleDb).2).all
        (fun r => r.id != 1)) = true
    ∧ (((listOp {} (deactivateOp 1 sampleNow sampleDb).2).1).all
        (fun r => r.id != 1)) = true :=
  ⟨(deactivate_visibility sampleDb 1 sampleNow sampleStudent (by decide) (by decide)).1,
   (deactivate_visibility sampleDb 1 sampleNow sampleStudent (by decide) (by decide)).2.1,
   (deactivate_visibility sampleDb 1 sampleNow sampleStudent (by decide) (by decide)).2.2.1 "rahul",
   (deactivate_visibility sampleDb 1 sampleNow sampleStudent (by decide) (by decide)).2.2.2.1 _,
   (deactivate_visibility sampleDb 1 sampleNow sampleStudent (by decide) (by decide)).2.2.2.2.1 _,
   (deactivate_visibility sampleDb 1 sampleNow sampleStudent (by decide) (by decide)).2.2.2.2.2.1 _,
   (deactivate_visibility sampleDb 1 sampleNow sampleStudent (by decide) (by decide)).2.2.2.2.2.2 {} rfl⟩

/-- C9 counterexample: a create with course "Astrology - Class 5" (all other
fields valid) produces an empty route-validation error list — the middleware
only checks that `course` is non-empty — so the request reaches the handler
and its store queries, and the create is rejected by the schema's enum as the
generic 500 "Failed to create student" response carrying no field-level error
messages. -/
theorem invalid_course_counterexample :
    routeValidate astroInput = []
    ∧ routeCreate astroInput sampleNow 1 [] = (createFailedResponse, [])
    ∧ createFailedResponse.status = 500
    ∧ createFailedResponse.errors = [] := by decide

/-- C9 amended: any create failing the route validation middleware is
answered with the 400 field-level messages and the store is untouched —
feeAmount 60000 fails it with the fee-range message — but catalog membership
of `course` is not part of that middleware: the "Astrology - Class 5" create
passes it, reaches the store, and surfaces as a generic 500 internal error
instead. -/
theorem route_validation_amended (i : StudentInput) (now : JsDate) (nid : Nat)
    (db : List Student) (hne : routeValidate i ≠ []) :
    routeCreate i now nid db = (validationFailedResponse (routeValidate i), db)
    ∧ "Fee amount cannot exceed ₹50,000" ∈ routeValidate fee60kInput
    ∧ routeValidate astroInput = []
    ∧ (routeCreate astroInput sampleNow 1 []).1 = createFailedResponse := by
  refine ⟨?_, by decide, by decide, by decide⟩
  unfold routeCreate
  rw [if_neg ?hne2]
  case hne2 =>
    intro hempty
    exact hne (List.isEmpty_iff.mp hempty)

/-- C9 witness: the amended theorem applied to the feeAmount-60000 create,
which is rejected with the field-level fee-range message and leaves the store
empty. -/
theorem route_validation_amended_witness :
    routeCreate fee60kInput sampleNow 1 []
      = (validationFailedResponse (routeValidate fee60kInput), [])
    ∧ "Fee amount cannot exceed ₹50,000" ∈ routeValidate fee60kInput
    ∧ routeValidate astroInput = []
    ∧ (routeCreate astroInput sampleNow 1 []).1 = createFailedResponse :=
  route_validation_amended fee60kInput sampleNow 1 [] (by decide)

/-- C10: the email "john@example.info" (final domain label longer than 3
characters) is accepted by the route-level email validation but rejected by
the schema's stored email pattern, so the create passes the middleware
(no validation errors), reaches the store, and is answered with the generic
500 internal error rather than a field-level validation error or a
conflict. -/
theorem email_validation_gap :
    isEmailModelled "john@example.info" = true
    ∧ schemaEmailMatch "john@example.info" = false
    ∧ routeValidate infoInput = []
    ∧ routeCreate infoInput sampleNow 1 [] = (createFailedResponse, [])
    ∧ createFailedResponse.status = 500
    ∧ createFailedResponse.errors = [] := by decide

end TuitionAdmin
